import Mathlib

/-!
Shallow embedding of the cvmfs client cache core (src/cvmfs/cache.cc and
src/cvmfs/cache.h): the PosixCacheManager transaction machinery
(StartTxn, Write, Flush, CommitTxn, AbortTxn, Rename, TearDown2ReadOnly)
and the CacheManager conveniences Open2Mem and CommitFromMem instantiated
with the POSIX backend.

File contents are byte lists.  The canonical object store and the
quarantaine directory are association lists keyed by the content hash
(path derivation itself is not at stake in any claim).  The staging file
of a transaction is carried alongside the transaction value.  Outcomes of
the syscalls the code branches on (raw write, mkstemp, rename, link,
unlink, pread) are supplied by an explicit oracle structure Sys; an empty
oracle list means every remaining call of that syscall succeeds.
Machine integers are Nat with an explicit mod 2^64 where the code adds
uint64_t values.  Calls the quota collaborator receives are recorded in an
event list, together with markers for the rename and mkstemp calls, so
that ordering claims can be stated.  assert() in the source is modelled by
the OpResult.assertFail outcome (process abort).  chmod in the alien-cache
commit path is modelled as succeeding (its failure aborts the process via
assert and is outside every claim).
-/

namespace Cvmfs

abbrev Bytes := List Nat

/-- 2^64, the modulus of the C++ uint64_t arithmetic in the source. -/
def U64 : Nat := 2 ^ 64

def u64 (n : Nat) : Nat := n % U64

/-- CacheManager::kSizeUnknown = uint64_t(-1). -/
def kSizeUnknown : Nat := U64 - 1

/-- PosixCacheManager::kBigFile = 25*1024*1024. -/
def kBigFile : Nat := 25 * 1024 * 1024

/-- sizeof(Transaction::buffer) = 4096 in cache.h. -/
def bufCapacity : Nat := 4096

def erofs : Int := 30
def enospc : Int := 28
def eio : Int := 5
def enoent : Int := 2

inductive CacheMode
  | readWrite
  | readOnly
deriving DecidableEq, Repr

inductive ObjectType
  | regular
  | catalog
  | pinned
  | volatile
deriving DecidableEq, BEq, Repr

/-- Outcome of one raw write(2) call: full count, short count, or errno.
The short constructor carries the count actually written. -/
inductive WriteRes
  | ok
  | short (k : Nat)
  | fail (errno : Nat)
deriving DecidableEq, Repr

inductive MkstempRes
  | ok (fd : Nat)
  | fail (errno : Nat)
deriving DecidableEq, Repr

inductive RenameRes
  | ok
  | fail (errno : Nat)
deriving DecidableEq, Repr

/-- Outcome of link(2) in the NFS rename variant; fail carries an errno
other than EEXIST, which has its own constructor. -/
inductive LinkRes
  | ok
  | eexist
  | fail (errno : Nat)
deriving DecidableEq, Repr

inductive PreadRes
  | ok
  | short (k : Nat)
  | fail (errno : Nat)
deriving DecidableEq, Repr

/-- Syscall oracle: heads of the lists are consumed per call; an exhausted
list means the call succeeds.  unlinks entries: none = success, some e =
failure with errno e. -/
structure Sys where
  writes : List WriteRes
  mkstempRes : MkstempRes
  renameRes : RenameRes
  linkRes : LinkRes
  unlinks : List (Option Nat)
  preads : List PreadRes
deriving DecidableEq, Repr

def popWrite (s : Sys) : WriteRes × Sys :=
  match s.writes with
  | [] => (WriteRes.ok, s)
  | r :: rest => (r, { s with writes := rest })

def popUnlink (s : Sys) : Option Nat × Sys :=
  match s.unlinks with
  | [] => (none, s)
  | r :: rest => (r, { s with unlinks := rest })

def popPread (s : Sys) : PreadRes × Sys :=
  match s.preads with
  | [] => (PreadRes.ok, s)
  | r :: rest => (r, { s with preads := rest })

/-- errno of a failing mkstemp must be positive (POSIX). -/
def mkstempWf : MkstempRes → Bool
  | MkstempRes.ok _ => true
  | MkstempRes.fail e => decide (0 < e)

/-- PosixCacheManager::Transaction (cache.h).  buffer holds the first
buf_pos bytes of the in-memory write buffer; fd_staged holds the bytes
already written through the staging descriptor. -/
structure Transaction where
  buffer : Bytes
  size : Nat
  expected_size : Nat
  ty : ObjectType
  description : String
  id : Nat
  fd_staged : Bytes
deriving DecidableEq, Repr

/-- Calls observable by collaborators, in program order, plus markers for
the mkstemp and rename calls so ordering can be stated. -/
inductive Event
  | cleanup (target : Nat)
  | mkstempCall
  | pin (id : Nat) (size : Nat) (desc : String) (isCatalog : Bool)
  | remove (id : Nat)
  | insert (id : Nat) (size : Nat) (desc : String)
  | insertVolatile (id : Nat) (size : Nat) (desc : String)
  | renameCall
deriving DecidableEq, Repr

/-- PosixCacheManager instance state. -/
structure Mgr where
  mode : CacheMode
  inflight : Int
  entries : List (Nat × Bytes)
  quarantine : List (Nat × Bytes)
  alien_cache : Bool
  alien_cache_on_nfs : Bool
  reports_correct_filesize : Bool
deriving DecidableEq, Repr

/-- Quota collaborator: values its queried operations return. -/
structure Quota where
  maxFileSize : Nat
  capacity : Nat
  pinOk : Bool
deriving DecidableEq, Repr

def lookupEntry : List (Nat × Bytes) → Nat → Option Bytes
  | [], _ => none
  | (k, v) :: rest, id => if k = id then some v else lookupEntry rest id

/-- PosixCacheManager::Flush (cache.cc lines 360-373).  On a short write
the code subtracts the written count from buf_pos without moving the
remaining bytes, so the buffer is truncated to its first
(buf_pos - written) bytes and -eio is returned. -/
def flush (t : Transaction) (s : Sys) : Int × Transaction × Sys :=
  if t.buffer.length = 0 then (0, t, s)
  else
    let (w, s1) := popWrite s
    match w with
    | WriteRes.fail e => (-(e : Int), t, s1)
    | WriteRes.ok =>
      (0, { t with fd_staged := t.fd_staged ++ t.buffer, buffer := [] }, s1)
    | WriteRes.short k =>
      let written := min k t.buffer.length
      if written = t.buffer.length then
        (0, { t with fd_staged := t.fd_staged ++ t.buffer, buffer := [] }, s1)
      else
        (-eio,
         { t with fd_staged := t.fd_staged ++ t.buffer.take written,
                  buffer := t.buffer.take (t.buffer.length - written) }, s1)

/-- The while loop of PosixCacheManager::Write (cache.cc lines 541-556).
The memcpy source in the code is the start of the caller buffer on every
iteration (the source pointer is never advanced by written), which
input.take batch mirrors.  The fuel argument only bounds the recursion;
posixWrite passes enough fuel for any input. -/
def writeLoop (input : Bytes) (n : Nat) (fuel written : Nat)
    (t : Transaction) (s : Sys) : Int × Transaction × Sys :=
  if _hf : fuel = 0 then (-(999 : Int), t, s)
  else if written < n then
    let fl := if t.buffer.length = bufCapacity then flush t s else (0, t, s)
    if fl.1 ≠ 0 then
      (fl.1, { fl.2.1 with size := u64 (fl.2.1.size + written) }, fl.2.2)
    else
      let remaining := n - written
      let space := bufCapacity - fl.2.1.buffer.length
      let batch := min remaining space
      writeLoop input n (fuel - 1) (written + batch)
        { fl.2.1 with buffer := fl.2.1.buffer ++ input.take batch } fl.2.2
  else
    ((n : Int), { t with size := u64 (t.size + written) }, s)
termination_by fuel
decreasing_by omega

/-- PosixCacheManager::Write (cache.cc lines 532-559). -/
def posixWrite (input : Bytes) (t : Transaction) (s : Sys) :
    Int × Transaction × Sys :=
  if t.expected_size ≠ kSizeUnknown ∧
      u64 (t.size + input.length) > t.expected_size then
    (-enospc, t, s)
  else
    writeLoop input input.length (input.length + 1) 0 t s

/-- Result of StartTxn: return value, manager state after the call, the
transaction value on success, the sequence of counter values after each
atomic operation on no_inflight_txns_ (the observable trace of the
counter during the call), collaborator events, and whether a staging file
was created. -/
structure StartOut where
  ret : Int
  mgr : Mgr
  txn : Option Transaction
  trace : List Int
  events : List Event
  stagingCreated : Bool
  sys : Sys
deriving DecidableEq, Repr

inductive OpResult (α : Type)
  | assertFail
  | ok (val : α)
deriving DecidableEq, Repr

/-- PosixCacheManager::StartTxn (cache.cc lines 468-513).  The counter is
incremented first and decremented again on every error return.  The
assert on quota capacity for big files precedes the Cleanup call. -/
def startTxn (mgr : Mgr) (q : Quota) (s : Sys) (id : Nat) (size : Nat) :
    OpResult StartOut :=
  let c1 := mgr.inflight + 1
  if mgr.mode = CacheMode.readOnly then
    OpResult.ok ⟨-erofs, { mgr with inflight := c1 - 1 }, none,
      [c1, c1 - 1], [], false, s⟩
  else if size ≠ kSizeUnknown ∧ size > q.maxFileSize then
    OpResult.ok ⟨-enospc, { mgr with inflight := c1 - 1 }, none,
      [c1, c1 - 1], [], false, s⟩
  else if size ≠ kSizeUnknown ∧ size > kBigFile ∧ q.capacity < size then
    OpResult.assertFail
  else
    let events :=
      if size ≠ kSizeUnknown ∧ size > kBigFile then
        [Event.cleanup (q.capacity - size)]
      else []
    match s.mkstempRes with
    | MkstempRes.fail e =>
      OpResult.ok ⟨-(e : Int), { mgr with inflight := c1 - 1 }, none,
        [c1, c1 - 1], events ++ [Event.mkstempCall], false, s⟩
    | MkstempRes.ok fd =>
      OpResult.ok ⟨(fd : Int), { mgr with inflight := c1 },
        some ⟨[], 0, size, ObjectType.regular, "", id, []⟩,
        [c1], events ++ [Event.mkstempCall], true, s⟩

/-- PosixCacheManager::CtrlTxn (cache.cc lines 340-349). -/
def ctrlTxn (desc : String) (ty : ObjectType) (t : Transaction) : Transaction :=
  { t with description := desc, ty := ty }

/-- PosixCacheManager::TearDown2ReadOnly (cache.cc lines 516-529): the
mode flag flips to read-only; the spin wait on the counter and the quota
manager swap have no observable effect on the state modelled here. -/
def tearDown2ReadOnly (mgr : Mgr) : Mgr :=
  { mgr with mode := CacheMode.readOnly }

structure RenameOut where
  ret : Int
  entries : List (Nat × Bytes)
  staging : Option Bytes
  sys : Sys
deriving DecidableEq, Repr

/-- PosixCacheManager::Rename (cache.cc lines 431-451) acting on the
canonical store: content is the staging file's bytes at id's final path.
In the NFS variant a successful or EEXIST link is followed by unlink of
the old name, whose failure is returned as -errno. -/
def renameFile (mgr : Mgr) (s : Sys) (id : Nat) (content : Bytes)
    (entries : List (Nat × Bytes)) : RenameOut :=
  if mgr.alien_cache_on_nfs = false then
    match s.renameRes with
    | RenameRes.ok => ⟨0, (id, content) :: entries, none, s⟩
    | RenameRes.fail e => ⟨-(e : Int), entries, some content, s⟩
  else
    match s.linkRes with
    | LinkRes.fail e => ⟨-(e : Int), entries, some content, s⟩
    | LinkRes.ok =>
      let (u, s1) := popUnlink s
      match u with
      | none => ⟨0, (id, content) :: entries, none, s1⟩
      | some e => ⟨-(e : Int), (id, content) :: entries, some content, s1⟩
    | LinkRes.eexist =>
      let (u, s1) := popUnlink s
      match u with
      | none => ⟨0, entries, none, s1⟩
      | some e => ⟨-(e : Int), entries, some content, s1⟩

structure CommitOut where
  ret : Int
  mgr : Mgr
  events : List Event
  stagingLeft : Option Bytes
  sys : Sys
deriving DecidableEq, Repr

/-- unlink of the staging file with the result ignored by the caller
(lines 231, 250, 265, 281 of cache.cc): the file survives only if the
unlink fails. -/
def unlinkStaging (content : Bytes) (s : Sys) : Option Bytes × Sys :=
  let (u, s1) := popUnlink s
  match u with
  | none => (none, s1)
  | some _ => (some content, s1)

/-- Size check of CommitTxn (cache.cc lines 238-243): mismatch with a
known expected size triggers quarantaine unless filesize reporting is
flagged unreliable and the accumulated size is zero. -/
abbrev commitSizeCheckFails (mgr : Mgr) (t1 : Transaction) : Prop :=
  t1.size ≠ t1.expected_size ∧ t1.expected_size ≠ kSizeUnknown ∧
    (mgr.reports_correct_filesize = true ∨ t1.size ≠ 0)

/-- Continuation of the rename-and-notify phase of CommitTxn on the
outcome ro of the Rename call (cache.cc lines 279-299). -/
def commitRenameWith (mgr : Mgr) (t1 : Transaction) (ro : RenameOut) :
    CommitOut :=
  if ro.ret < 0 then
    let (left, s2) := unlinkStaging t1.fd_staged ro.sys
    { ret := ro.ret,
      mgr := { mgr with entries := ro.entries, inflight := mgr.inflight - 1 },
      events := [Event.renameCall] ++
        (if t1.ty = ObjectType.pinned ∨ t1.ty = ObjectType.catalog then
          [Event.remove t1.id]
         else []),
      stagingLeft := left, sys := s2 }
  else
    { ret := ro.ret,
      mgr := { mgr with entries := ro.entries, inflight := mgr.inflight - 1 },
      events := [Event.renameCall] ++
        (if t1.ty = ObjectType.volatile then
          [Event.insertVolatile t1.id t1.size t1.description]
         else if t1.ty = ObjectType.regular then
          [Event.insert t1.id t1.size t1.description]
         else []),
      stagingLeft := ro.staging, sys := ro.sys }

/-- Rename-and-notify phase of CommitTxn (cache.cc lines 272-299): chmod
(modelled as succeeding), the Rename call, then quota notifications. -/
def commitRenamePhase (mgr : Mgr) (s : Sys) (t1 : Transaction) : CommitOut :=
  commitRenameWith mgr t1 (renameFile mgr s t1.id t1.fd_staged mgr.entries)

/-- Pin phase of CommitTxn (cache.cc lines 257-270). -/
def commitPinPhase (mgr : Mgr) (q : Quota) (s : Sys) (t1 : Transaction) :
    CommitOut :=
  if t1.ty = ObjectType.pinned ∨ t1.ty = ObjectType.catalog then
    let ev := Event.pin t1.id t1.size t1.description
      (decide (t1.ty = ObjectType.catalog))
    if q.pinOk then
      let out := commitRenamePhase mgr s t1
      { out with events := ev :: out.events }
    else
      let (left, s2) := unlinkStaging t1.fd_staged s
      { ret := -enospc, mgr := { mgr with inflight := mgr.inflight - 1 },
        events := [ev], stagingLeft := left, sys := s2 }
  else
    commitRenamePhase mgr s t1

/-- Continuation of CommitTxn after the initial Flush, on the flush
result r (cache.cc lines 230-300). -/
def commitFlushWith (mgr : Mgr) (q : Quota) (r : Int) (t1 : Transaction)
    (s1 : Sys) : CommitOut :=
  if r < 0 then
    let (left, s2) := unlinkStaging t1.fd_staged s1
    { ret := r, mgr := { mgr with inflight := mgr.inflight - 1 },
      events := [], stagingLeft := left, sys := s2 }
  else if commitSizeCheckFails mgr t1 then
    let (left, s2) := unlinkStaging t1.fd_staged s1
    { ret := -eio,
      mgr := { mgr with
                quarantine := (t1.id, t1.fd_staged) :: mgr.quarantine,
                inflight := mgr.inflight - 1 },
      events := [], stagingLeft := left, sys := s2 }
  else
    commitPinPhase mgr q s1 t1

/-- PosixCacheManager::CommitTxn (cache.cc lines 222-300). -/
def commitTxn (mgr : Mgr) (q : Quota) (s : Sys) (t : Transaction) : CommitOut :=
  let f := flush t s
  commitFlushWith mgr q f.1 f.2.1 f.2.2

structure AbortOut where
  ret : Int
  mgr : Mgr
  stagingLeft : Option Bytes
  sys : Sys
deriving DecidableEq, Repr

/-- PosixCacheManager::AbortTxn (cache.cc lines 201-211). -/
def abortTxn (mgr : Mgr) (s : Sys) (t : Transaction) : AbortOut :=
  let (u, s1) := popUnlink s
  match u with
  | none => ⟨0, { mgr with inflight := mgr.inflight - 1 }, none, s1⟩
  | some e =>
    ⟨-(e : Int), { mgr with inflight := mgr.inflight - 1 }, some t.fd_staged, s1⟩

/-- pread(2) on an open descriptor whose object content is given:
the natural byte count is short only at EOF; the oracle may further
shorten it or fail the call. -/
def preadBytes (content : Bytes) (n off : Nat) (s : Sys) :
    Int × Bytes × Sys :=
  let natural := (content.drop off).take n
  let (pr, s1) := popPread s
  match pr with
  | PreadRes.ok => ((natural.length : Int), natural, s1)
  | PreadRes.short k =>
    let taken := natural.take k
    ((taken.length : Int), taken, s1)
  | PreadRes.fail e => (-(e : Int), [], s1)

structure Open2MemOut where
  success : Bool
  buffer : Option Bytes
  size : Nat
deriving DecidableEq, Repr

/-- CacheManager::Open2Mem (cache.cc lines 136-168) instantiated with the
POSIX backend: Open succeeds exactly on a committed entry, GetSize is its
length, a single Pread of the full size at offset 0 fills the buffer.
A buffer value of none models the NULL pointer. -/
def open2Mem (mgr : Mgr) (s : Sys) (id : Nat) : Open2MemOut × Sys :=
  match lookupEntry mgr.entries id with
  | none => (⟨false, none, 0⟩, s)
  | some content =>
    let sz := content.length
    if 0 < sz then
      let p := preadBytes content sz 0 s
      if p.1 < 0 ∨ p.1 ≠ (sz : Int) then (⟨false, none, 0⟩, p.2.2)
      else (⟨true, some p.2.1, sz⟩, p.2.2)
    else
      (⟨true, none, 0⟩, s)

/-- CacheManager::CommitFromMem (cache.cc lines 175-193) instantiated with
the POSIX backend: StartTxn, CtrlTxn(description, kTypeRegular), Write,
and CommitTxn (AbortTxn on a failed write). -/
def commitFromMem (mgr : Mgr) (q : Quota) (s : Sys) (id : Nat) (buf : Bytes)
    (desc : String) : OpResult (Bool × Mgr × Sys) :=
  match startTxn mgr q s id buf.length with
  | OpResult.assertFail => OpResult.assertFail
  | OpResult.ok st =>
    match st.txn with
    | none => OpResult.ok (false, st.mgr, st.sys)
    | some t0 =>
      let t1 := ctrlTxn desc ObjectType.regular t0
      let w := posixWrite buf t1 st.sys
      if w.1 < 0 ∨ w.1 ≠ (buf.length : Int) then
        let a := abortTxn st.mgr w.2.2 w.2.1
        OpResult.ok (false, a.mgr, a.sys)
      else
        let c := commitTxn st.mgr q w.2.2 w.2.1
        OpResult.ok (c.ret == 0, c.mgr, c.sys)

/-- Accessors on the StartTxn outcome, none when the assert fired. -/
def sRet : OpResult StartOut → Option Int
  | OpResult.ok s => some s.ret
  | OpResult.assertFail => none

def sCreated : OpResult StartOut → Option Bool
  | OpResult.ok s => some s.stagingCreated
  | OpResult.assertFail => none

def sInflight : OpResult StartOut → Option Int
  | OpResult.ok s => some s.mgr.inflight
  | OpResult.assertFail => none

def sEvents : OpResult StartOut → Option (List Event)
  | OpResult.ok s => some s.events
  | OpResult.assertFail => none

def sTrace : OpResult StartOut → List Int
  | OpResult.ok s => s.trace
  | OpResult.assertFail => []

def cfmOk : OpResult (Bool × Mgr × Sys) → Bool
  | OpResult.ok r => r.1
  | OpResult.assertFail => false

def cfmMgr (d : Mgr) : OpResult (Bool × Mgr × Sys) → Mgr
  | OpResult.ok r => r.2.1
  | OpResult.assertFail => d

/-- Fresh read-write manager over an empty cache directory. -/
def mgr0 : Mgr := ⟨CacheMode.readWrite, 0, [], [], false, false, true⟩

/-- Manager already drained to read-only mode. -/
def mgrRO : Mgr := ⟨CacheMode.readOnly, 0, [], [], false, false, true⟩

/-- Quota collaborator with effectively unlimited caps and granting pins. -/
def q0 : Quota := ⟨U64, U64, true⟩

/-- Oracle on which every syscall succeeds; mkstemp yields descriptor 7. -/
def sys0 : Sys := ⟨[], MkstempRes.ok 7, RenameRes.ok, LinkRes.ok, [], []⟩

theorem flush_ok (t : Transaction) (s : Sys) (hw : s.writes = []) :
    flush t s =
      (0, { t with fd_staged := t.fd_staged ++ t.buffer, buffer := [] }, s) := by
  unfold flush popWrite
  rw [hw]
  by_cases h : t.buffer.length = 0
  · rw [if_pos h]
    have hb : t.buffer = [] := List.length_eq_zero.mp h
    cases t
    simp_all
  · rw [if_neg h]

theorem commitRenameWith_inflight (mgr : Mgr) (t1 : Transaction)
    (ro : RenameOut) :
    (commitRenameWith mgr t1 ro).mgr.inflight = mgr.inflight - 1 := by
  obtain ⟨r, en, st, s2⟩ := ro
  unfold commitRenameWith
  dsimp only
  split <;> rfl

theorem commitRenamePhase_inflight (mgr : Mgr) (s : Sys) (t1 : Transaction) :
    (commitRenamePhase mgr s t1).mgr.inflight = mgr.inflight - 1 :=
  commitRenameWith_inflight mgr t1 _

theorem commitPinPhase_inflight (mgr : Mgr) (q : Quota) (s : Sys)
    (t1 : Transaction) :
    (commitPinPhase mgr q s t1).mgr.inflight = mgr.inflight - 1 := by
  unfold commitPinPhase
  split
  · split
    · show (commitRenamePhase mgr s t1).mgr.inflight = mgr.inflight - 1
      exact commitRenamePhase_inflight mgr s t1
    · split
      rfl
  · exact commitRenamePhase_inflight mgr s t1

theorem commitFlushWith_inflight (mgr : Mgr) (q : Quota) (r : Int)
    (t1 : Transaction) (s1 : Sys) :
    (commitFlushWith mgr q r t1 s1).mgr.inflight = mgr.inflight - 1 := by
  unfold commitFlushWith
  split
  · rfl
  · split
    · rfl
    · exact commitPinPhase_inflight mgr q s1 t1

theorem commitTxn_inflight (mgr : Mgr) (q : Quota) (s : Sys)
    (t : Transaction) :
    (commitTxn mgr q s t).mgr.inflight = mgr.inflight - 1 :=
  commitFlushWith_inflight mgr q _ _ _

theorem abortTxn_inflight (mgr : Mgr) (s : Sys) (t : Transaction) :
    (abortTxn mgr s t).mgr.inflight = mgr.inflight - 1 := by
  unfold abortTxn
  rcases popUnlink s with ⟨u, s1⟩
  cases u <;> rfl

/-- C3: a Write whose byte count would push the accumulated size past a
known expected size returns -enospc and leaves the transaction (buffer
fill, accumulated size, staging-file contents) and the syscall oracle
untouched. -/
theorem c3_write_overflow_enospc (t : Transaction) (input : Bytes) (s : Sys)
    (hexp : t.expected_size ≠ kSizeUnknown)
    (hover : t.size + input.length > t.expected_size)
    (hwrap : t.size + input.length < U64) :
    posixWrite input t s = (-enospc, t, s) := by
  have h : t.expected_size ≠ kSizeUnknown ∧
      u64 (t.size + input.length) > t.expected_size :=
    ⟨hexp, by rw [u64, Nat.mod_eq_of_lt hwrap]; exact hover⟩
  unfold posixWrite
  rw [if_pos h]

def c3t : Transaction := ⟨[1], 8, 10, ObjectType.regular, "", 4, [2]⟩

/-- C3 witness: transaction with 8 of 10 expected bytes accumulated; a
3-byte write fails with -enospc and changes nothing. -/
theorem c3_write_overflow_enospc_witness :
    posixWrite [5, 6, 7] c3t sys0 = (-enospc, c3t, sys0) :=
  c3_write_overflow_enospc c3t [5, 6, 7] sys0 (by decide) (by decide) (by decide)

def c2call : OpResult StartOut := startTxn mgrRO q0 sys0 5 64

/-- C2 counterexample: on a read-only manager with in-flight counter 0,
StartTxn's counter trace contains the value 1, so the counter is
observably incremented during the call, contradicting the claim that its
value at any point during the call equals the value before. -/
theorem c2_counterexample :
    mgrRO.inflight = 0 ∧ (1 : Int) ∈ sTrace c2call ∧ (1 : Int) ≠ 0 := by decide

/-- C2 (amended): in read-only mode StartTxn returns -erofs, creates no
staging file, and the counter after the call equals its value before the
call; however the counter is transiently incremented to one above its
prior value and then decremented, as the trace shows.  TearDown2ReadOnly
leaves the mode read-only, so this covers every call after it returns. -/
theorem c2_startTxn_readonly (mgr : Mgr) (q : Quota) (s : Sys) (id size : Nat)
    (h : mgr.mode = CacheMode.readOnly) :
    sRet (startTxn mgr q s id size) = some (-erofs) ∧
    sCreated (startTxn mgr q s id size) = some false ∧
    sInflight (startTxn mgr q s id size) = some mgr.inflight ∧
    sTrace (startTxn mgr q s id size) = [mgr.inflight + 1, mgr.inflight] ∧
    (tearDown2ReadOnly mgr).mode = CacheMode.readOnly := by
  have e : mgr.inflight + 1 - 1 = mgr.inflight := by omega
  unfold startTxn
  rw [if_pos h]
  exact ⟨rfl, rfl, by simp [sInflight, e], by simp [sTrace, e], rfl⟩

/-- C2 witness: the amended statement at the concrete read-only manager. -/
theorem c2_startTxn_readonly_witness :
    sRet (startTxn mgrRO q0 sys0 5 64) = some (-erofs) ∧
    sCreated (startTxn mgrRO q0 sys0 5 64) = some false ∧
    sInflight (startTxn mgrRO q0 sys0 5 64) = some mgrRO.inflight ∧
    sTrace (startTxn mgrRO q0 sys0 5 64) = [mgrRO.inflight + 1, mgrRO.inflight] ∧
    (tearDown2ReadOnly mgrRO).mode = CacheMode.readOnly :=
  c2_startTxn_readonly mgrRO q0 sys0 5 64 rfl

theorem open2Mem_cases (mgr : Mgr) (s : Sys) (id : Nat) :
    (open2Mem mgr s id).1.success = true ∨
    (open2Mem mgr s id).1 = ⟨false, none, 0⟩ := by
  unfold open2Mem
  rcases lookupEntry mgr.entries id with _ | content
  · exact Or.inr rfl
  · dsimp only
    split
    · split
      · exact Or.inr rfl
      · exact Or.inl rfl
    · exact Or.inl rfl

/-- C10: Open2Mem on a committed zero-size object returns success with a
NULL buffer and size 0 without consuming a pread outcome; on a missing
object it fails; and every failing Open2Mem reports a NULL buffer and
size 0. -/
theorem c10_open2mem_zero_and_failure (mgr : Mgr) (s : Sys) (id : Nat) :
    (lookupEntry mgr.entries id = some [] →
       open2Mem mgr s id = (⟨true, none, 0⟩, s)) ∧
    (lookupEntry mgr.entries id = none →
       open2Mem mgr s id = (⟨false, none, 0⟩, s)) ∧
    ((open2Mem mgr s id).1.success = false →
       (open2Mem mgr s id).1.buffer = none ∧ (open2Mem mgr s id).1.size = 0) := by
  refine ⟨?_, ?_, ?_⟩
  · intro h; simp [open2Mem, h]
  · intro h; simp [open2Mem, h]
  · intro h
    rcases open2Mem_cases mgr s id with hs | hshape
    · rw [h] at hs; cases hs
    · rw [hshape]; exact ⟨rfl, rfl⟩

def c10mgr : Mgr := ⟨CacheMode.readWrite, 0, [(1, [])], [], false, false, true⟩

/-- C10 witness: zero-size entry under hash 1 read back successfully with
a NULL buffer, at the all-success oracle. -/
theorem c10_open2mem_witness :
    open2Mem c10mgr sys0 1 = (⟨true, none, 0⟩, sys0) :=
  (c10_open2mem_zero_and_failure c10mgr sys0 1).1 (by decide)

theorem startTxn_inflight (mgr : Mgr) (q : Quota) (s : Sys) (id size : Nat)
    (out : StartOut) (hwf : mkstempWf s.mkstempRes = true)
    (hs : startTxn mgr q s id size = OpResult.ok out) :
    (0 ≤ out.ret → out.mgr.inflight = mgr.inflight + 1) ∧
    (out.ret < 0 → out.mgr.inflight = mgr.inflight) := by
  unfold startTxn at hs
  split at hs
  · cases hs
    constructor
    · intro hret; norm_num [erofs] at hret
    · intro _; dsimp only; omega
  · split at hs
    · cases hs
      constructor
      · intro hret; norm_num [enospc] at hret
      · intro _; dsimp only; omega
    · split at hs
      · cases hs
      · rcases hmk : s.mkstempRes with fd | e <;> rw [hmk] at hs hwf <;>
          dsimp only at hs <;> cases hs
        · constructor
          · intro _; rfl
          · intro hret; dsimp only at hret; omega
        · simp only [mkstempWf, decide_eq_true_eq] at hwf
          constructor
          · intro hret; dsimp only at hret; omega
          · intro _; dsimp only; omega

/-- C9: the in-flight-transactions counter is balanced: a StartTxn that
returns a non-negative descriptor leaves the counter one above its prior
value, a StartTxn that returns an error code leaves it unchanged, and
CommitTxn and AbortTxn decrement it by exactly one on every path. -/
theorem c9_inflight_balanced (mgr : Mgr) (q : Quota) (s : Sys) (id size : Nat)
    (t : Transaction) (out : StartOut)
    (hwf : mkstempWf s.mkstempRes = true)
    (hs : startTxn mgr q s id size = OpResult.ok out) :
    (0 ≤ out.ret → out.mgr.inflight = mgr.inflight + 1) ∧
    (out.ret < 0 → out.mgr.inflight = mgr.inflight) ∧
    (commitTxn mgr q s t).mgr.inflight = mgr.inflight - 1 ∧
    (abortTxn mgr s t).mgr.inflight = mgr.inflight - 1 :=
  ⟨(startTxn_inflight mgr q s id size out hwf hs).1,
   (startTxn_inflight mgr q s id size out hwf hs).2,
   commitTxn_inflight mgr q s t,
   abortTxn_inflight mgr s t⟩

def c9start : OpResult StartOut := startTxn mgr0 q0 sys0 3 5

def c9out : StartOut :=
  match c9start with
  | OpResult.ok st => st
  | OpResult.assertFail => ⟨0, mgr0, none, [], [], false, sys0⟩

def c9t : Transaction := ⟨[], 0, 0, ObjectType.regular, "", 3, []⟩

/-- C9 witness: concrete successful StartTxn on the fresh manager plus a
concrete CommitTxn and AbortTxn. -/
theorem c9_inflight_balanced_witness :
    (0 ≤ c9out.ret → c9out.mgr.inflight = mgr0.inflight + 1) ∧
    (c9out.ret < 0 → c9out.mgr.inflight = mgr0.inflight) ∧
    (commitTxn mgr0 q0 sys0 c9t).mgr.inflight = mgr0.inflight - 1 ∧
    (abortTxn mgr0 sys0 c9t).mgr.inflight = mgr0.inflight - 1 :=
  c9_inflight_balanced mgr0 q0 sys0 3 5 c9t c9out (by decide) (by decide)

/-- C7: in read-write mode with a known expected size, a size above the
quota collaborator's maximum file size makes StartTxn return -enospc with
no staging file created and the counter back at its prior value; a size
within the maximum but above the big-file threshold, when capacity covers
it, triggers Cleanup(capacity - size) before the mkstemp call that
allocates the staging file. -/
theorem c7_startTxn_quota (mgr : Mgr) (q : Quota) (s : Sys) (id size : Nat)
    (hm : mgr.mode = CacheMode.readWrite) (hk : size ≠ kSizeUnknown) :
    (size > q.maxFileSize →
       sRet (startTxn mgr q s id size) = some (-enospc) ∧
       sCreated (startTxn mgr q s id size) = some false ∧
       sInflight (startTxn mgr q s id size) = some mgr.inflight) ∧
    (size ≤ q.maxFileSize → kBigFile < size → size ≤ q.capacity →
       sEvents (startTxn mgr q s id size) =
         some [Event.cleanup (q.capacity - size), Event.mkstempCall]) := by
  have hmode : ¬ (mgr.mode = CacheMode.readOnly) := by
    rw [hm]; intro hcon; cases hcon
  constructor
  · intro hgt
    unfold startTxn
    rw [if_neg hmode, if_pos ⟨hk, hgt⟩]
    refine ⟨rfl, rfl, ?_⟩
    show some (mgr.inflight + 1 - 1) = some mgr.inflight
    congr 1
    omega
  · intro hle hbig hcap
    unfold startTxn
    rw [if_neg hmode,
        if_neg (fun h => absurd h.2 (not_lt.mpr hle)),
        if_neg (fun (h : _ ∧ _ ∧ q.capacity < size) =>
          absurd h.2.2 (not_lt.mpr hcap))]
    cases hmk : s.mkstempRes <;>
      · dsimp only
        rw [if_pos ⟨hk, hbig⟩]
        rfl

/-- C7 witness: size one above the big-file threshold on the unlimited
quota collaborator. -/
theorem c7_startTxn_quota_witness :
    ((kBigFile + 1 : Nat) > q0.maxFileSize →
       sRet (startTxn mgr0 q0 sys0 2 (kBigFile + 1)) = some (-enospc) ∧
       sCreated (startTxn mgr0 q0 sys0 2 (kBigFile + 1)) = some false ∧
       sInflight (startTxn mgr0 q0 sys0 2 (kBigFile + 1)) = some mgr0.inflight) ∧
    ((kBigFile + 1 : Nat) ≤ q0.maxFileSize → kBigFile < kBigFile + 1 →
       (kBigFile + 1 : Nat) ≤ q0.capacity →
       sEvents (startTxn mgr0 q0 sys0 2 (kBigFile + 1)) =
         some [Event.cleanup (q0.capacity - (kBigFile + 1)),
               Event.mkstempCall]) :=
  c7_startTxn_quota mgr0 q0 sys0 2 (kBigFile + 1) rfl (by decide)

theorem commitTxn_flush_ok (mgr : Mgr) (q : Quota) (s : Sys) (t : Transaction)
    (hw : s.writes = []) :
    commitTxn mgr q s t =
      commitFlushWith mgr q 0
        { t with fd_staged := t.fd_staged ++ t.buffer, buffer := [] } s := by
  unfold commitTxn
  rw [flush_ok t s hw]

theorem commitFlushWith_passcheck (mgr : Mgr) (q : Quota) (t1 : Transaction)
    (s1 : Sys) (hpass : ¬ commitSizeCheckFails mgr t1) :
    commitFlushWith mgr q 0 t1 s1 = commitPinPhase mgr q s1 t1 := by
  unfold commitFlushWith
  rw [if_neg (by norm_num), if_neg hpass]

theorem commitFlushWith_failcheck (mgr : Mgr) (q : Quota) (t1 : Transaction)
    (s1 : Sys) (hfail : commitSizeCheckFails mgr t1) (hu : s1.unlinks = []) :
    commitFlushWith mgr q 0 t1 s1 =
      { ret := -eio,
        mgr := { mgr with
                  quarantine := (t1.id, t1.fd_staged) :: mgr.quarantine,
                  inflight := mgr.inflight - 1 },
        events := [], stagingLeft := none, sys := s1 } := by
  unfold commitFlushWith unlinkStaging popUnlink
  rw [if_neg (by norm_num), if_pos hfail, hu]

theorem commitPinPhase_notPinned (mgr : Mgr) (q : Quota) (s : Sys)
    (t1 : Transaction)
    (h : ¬ (t1.ty = ObjectType.pinned ∨ t1.ty = ObjectType.catalog)) :
    commitPinPhase mgr q s t1 = commitRenamePhase mgr s t1 := by
  unfold commitPinPhase
  rw [if_neg h]

theorem commitPinPhase_granted (mgr : Mgr) (q : Quota) (s : Sys)
    (t1 : Transaction) (hq : q.pinOk = true) :
    (commitPinPhase mgr q s t1).ret = (commitRenamePhase mgr s t1).ret ∧
    (commitPinPhase mgr q s t1).mgr = (commitRenamePhase mgr s t1).mgr := by
  unfold commitPinPhase
  rw [hq]
  split
  · exact ⟨rfl, rfl⟩
  · exact ⟨rfl, rfl⟩

theorem renameFile_plain_ok (mgr : Mgr) (s : Sys) (id : Nat) (c : Bytes)
    (en : List (Nat × Bytes))
    (hnfs : mgr.alien_cache_on_nfs = false) (hr : s.renameRes = RenameRes.ok) :
    renameFile mgr s id c en = ⟨0, (id, c) :: en, none, s⟩ := by
  simp [renameFile, hnfs, hr]

theorem renameFile_nfs_eexist (mgr : Mgr) (s : Sys) (id : Nat) (c : Bytes)
    (en : List (Nat × Bytes))
    (hnfs : mgr.alien_cache_on_nfs = true) (hl : s.linkRes = LinkRes.eexist)
    (hu : s.unlinks = []) :
    renameFile mgr s id c en = ⟨0, en, none, s⟩ := by
  simp [renameFile, popUnlink, hnfs, hl, hu]

theorem renameFile_nfs_unlink_fail (mgr : Mgr) (s : Sys) (id : Nat) (c : Bytes)
    (en : List (Nat × Bytes)) (e : Nat)
    (hnfs : mgr.alien_cache_on_nfs = true) (hl : s.linkRes = LinkRes.ok)
    (hu : s.unlinks = [some e]) :
    renameFile mgr s id c en =
      ⟨-(e : Int), (id, c) :: en, some c, { s with unlinks := [] }⟩ := by
  simp [renameFile, popUnlink, hnfs, hl, hu]

theorem commitRenameWith_ok (mgr : Mgr) (t1 : Transaction)
    (en : List (Nat × Bytes)) (st : Option Bytes) (s2 : Sys) :
    (commitRenameWith mgr t1 ⟨0, en, st, s2⟩).ret = 0 ∧
    (commitRenameWith mgr t1 ⟨0, en, st, s2⟩).mgr =
      { mgr with entries := en, inflight := mgr.inflight - 1 } := by
  unfold commitRenameWith
  rw [if_neg (by norm_num)]
  exact ⟨rfl, rfl⟩

theorem commitRenameWith_err (mgr : Mgr) (t1 : Transaction) (r : Int)
    (en : List (Nat × Bytes)) (st : Option Bytes) (s2 : Sys) (hr : r < 0) :
    (commitRenameWith mgr t1 ⟨r, en, st, s2⟩).ret = r ∧
    (commitRenameWith mgr t1 ⟨r, en, st, s2⟩).mgr =
      { mgr with entries := en, inflight := mgr.inflight - 1 } := by
  unfold commitRenameWith
  rw [if_pos (by exact hr)]
  exact ⟨rfl, rfl⟩

def c6mgr : Mgr := ⟨CacheMode.readWrite, 1, [], [], true, true, true⟩

def c6t : Transaction := ⟨[], 3, 3, ObjectType.regular, "", 8, [10, 11, 12]⟩

def c6sys : Sys := ⟨[], MkstempRes.ok 7, RenameRes.ok, LinkRes.ok, [some 13], []⟩

/-- C6 counterexample: an alien-cache-on-NFS commit in which the link
step succeeds and the unlink of the old name fails with EACCES (13):
CommitTxn returns -13, not success, contradicting the claim that an
unlink error after a successful link does not invalidate the commit. -/
theorem c6_counterexample :
    (commitTxn c6mgr q0 c6sys c6t).ret = -13 ∧ ((-13 : Int) ≠ 0) := by decide

/-- C6 (amended): in the alien-cache-on-NFS variant of Rename, EEXIST on
the link step is treated as success (the commit returns 0); but an unlink
error on the old name after a successful link makes Rename, and hence the
enclosing CommitTxn, return the negated unlink errno, even though the
canonical entry is in place.  Shown for a size-matching regular
transaction: oracle sA has link fail with EEXIST and the unlink succeed;
oracle sB has the link succeed and the unlink fail with errno e. -/
theorem c6_nfs_rename_semantics (mgr : Mgr) (q : Quota) (t : Transaction)
    (sA sB : Sys) (e : Nat)
    (hnfs : mgr.alien_cache_on_nfs = true)
    (hwA : sA.writes = []) (hlA : sA.linkRes = LinkRes.eexist)
    (huA : sA.unlinks = [])
    (hwB : sB.writes = []) (hlB : sB.linkRes = LinkRes.ok)
    (huB : sB.unlinks = [some e])
    (hty : t.ty = ObjectType.regular)
    (hsz : t.size = t.expected_size)
    (he : 0 < e) :
    (commitTxn mgr q sA t).ret = 0 ∧
    (commitTxn mgr q sB t).ret = -(e : Int) ∧
    (commitTxn mgr q sB t).ret ≠ 0 ∧
    lookupEntry (commitTxn mgr q sB t).mgr.entries t.id =
      some (t.fd_staged ++ t.buffer) := by
  have hpass : ¬ commitSizeCheckFails mgr
      { t with fd_staged := t.fd_staged ++ t.buffer, buffer := [] } :=
    fun h => h.1 hsz
  have hnp : ¬ (t.ty = ObjectType.pinned ∨ t.ty = ObjectType.catalog) := by
    intro h
    rcases h with h | h <;> rw [hty] at h <;> cases h
  have hA : commitTxn mgr q sA t =
      commitRenameWith mgr
        { t with fd_staged := t.fd_staged ++ t.buffer, buffer := [] }
        (renameFile mgr sA t.id (t.fd_staged ++ t.buffer) mgr.entries) := by
    rw [commitTxn_flush_ok mgr q sA t hwA,
        commitFlushWith_passcheck mgr q _ sA hpass,
        commitPinPhase_notPinned mgr q sA
          { t with fd_staged := t.fd_staged ++ t.buffer, buffer := [] } hnp]
    rfl
  have hB : commitTxn mgr q sB t =
      commitRenameWith mgr
        { t with fd_staged := t.fd_staged ++ t.buffer, buffer := [] }
        (renameFile mgr sB t.id (t.fd_staged ++ t.buffer) mgr.entries) := by
    rw [commitTxn_flush_ok mgr q sB t hwB,
        commitFlushWith_passcheck mgr q _ sB hpass,
        commitPinPhase_notPinned mgr q sB
          { t with fd_staged := t.fd_staged ++ t.buffer, buffer := [] } hnp]
    rfl
  rw [hA, hB, renameFile_nfs_eexist mgr sA t.id _ mgr.entries hnfs hlA huA,
      renameFile_nfs_unlink_fail mgr sB t.id _ mgr.entries e hnfs hlB huB]
  have hkB := commitRenameWith_err mgr
    { t with fd_staged := t.fd_staged ++ t.buffer, buffer := [] }
    (-(e : Int)) ((t.id, t.fd_staged ++ t.buffer) :: mgr.entries)
    (some (t.fd_staged ++ t.buffer)) { sB with unlinks := [] }
    (by omega)
  refine ⟨(commitRenameWith_ok mgr _ mgr.entries none sA).1, hkB.1, ?_, ?_⟩
  · rw [hkB.1]; omega
  · rw [hkB.2]
    simp [lookupEntry]

theorem commitRenameWith_renameCall (mgr : Mgr) (t1 : Transaction)
    (ro : RenameOut) :
    Event.renameCall ∈ (commitRenameWith mgr t1 ro).events := by
  obtain ⟨r, en, st, s2⟩ := ro
  unfold commitRenameWith
  dsimp only
  split <;> exact List.mem_cons_self _ _

/-- C4: on a commit whose transaction has a known expected size differing
from the accumulated size (all raw writes and unlinks succeeding, plain
rename available, pin granted), the staging content is copied into
quarantaine under the hash, the staging file is unlinked and CommitTxn
returns -eio; exactly when filesize reporting is flagged unreliable and
the accumulated size is 0 the check is skipped and the commit proceeds to
success. -/
theorem c4_commit_size_check (mgr : Mgr) (q : Quota) (s : Sys)
    (t : Transaction)
    (hw : s.writes = []) (hu : s.unlinks = [])
    (hnfs : mgr.alien_cache_on_nfs = false) (hren : s.renameRes = RenameRes.ok)
    (hpin : q.pinOk = true)
    (hexp : t.expected_size ≠ kSizeUnknown)
    (hne : t.size ≠ t.expected_size) :
    if mgr.reports_correct_filesize = true ∨ t.size ≠ 0 then
      (commitTxn mgr q s t).ret = -eio ∧
      lookupEntry (commitTxn mgr q s t).mgr.quarantine t.id =
        some (t.fd_staged ++ t.buffer) ∧
      (commitTxn mgr q s t).stagingLeft = none ∧
      (commitTxn mgr q s t).mgr.entries = mgr.entries
    else
      (commitTxn mgr q s t).mgr.quarantine = mgr.quarantine ∧
      (commitTxn mgr q s t).ret = 0 ∧
      lookupEntry (commitTxn mgr q s t).mgr.entries t.id =
        some (t.fd_staged ++ t.buffer) := by
  rw [commitTxn_flush_ok mgr q s t hw]
  by_cases hrep : mgr.reports_correct_filesize = true ∨ t.size ≠ 0
  · rw [if_pos hrep,
        commitFlushWith_failcheck mgr q
          { t with fd_staged := t.fd_staged ++ t.buffer, buffer := [] } s
          ⟨hne, hexp, hrep⟩ hu]
    refine ⟨rfl, ?_, rfl, rfl⟩
    simp [lookupEntry]
  · rw [if_neg hrep,
        commitFlushWith_passcheck mgr q
          { t with fd_staged := t.fd_staged ++ t.buffer, buffer := [] } s
          (fun h => hrep h.2.2)]
    have hg := commitPinPhase_granted mgr q s
      { t with fd_staged := t.fd_staged ++ t.buffer, buffer := [] } hpin
    have hrw : commitRenamePhase mgr s
        { t with fd_staged := t.fd_staged ++ t.buffer, buffer := [] } =
        commitRenameWith mgr
          { t with fd_staged := t.fd_staged ++ t.buffer, buffer := [] }
          ⟨0, (t.id, t.fd_staged ++ t.buffer) :: mgr.entries, none, s⟩ := by
      unfold commitRenamePhase
      rw [renameFile_plain_ok mgr s t.id (t.fd_staged ++ t.buffer)
            mgr.entries hnfs hren]
    have hok := commitRenameWith_ok mgr
      { t with fd_staged := t.fd_staged ++ t.buffer, buffer := [] }
      ((t.id, t.fd_staged ++ t.buffer) :: mgr.entries) none s
    refine ⟨?_, ?_, ?_⟩
    · rw [hg.2, hrw, hok.2]
    · rw [hg.1, hrw, hok.1]
    · rw [hg.2, hrw, hok.2]
      simp [lookupEntry]

def c4t : Transaction := ⟨[1], 3, 5, ObjectType.regular, "d", 9, [2]⟩

/-- C4 witness: size 3 accumulated against expected size 5 on the default
manager (correct filesize reporting), pin granted, all syscalls ok. -/
theorem c4_commit_size_check_witness :
    if mgr0.reports_correct_filesize = true ∨ c4t.size ≠ 0 then
      (commitTxn mgr0 q0 sys0 c4t).ret = -eio ∧
      lookupEntry (commitTxn mgr0 q0 sys0 c4t).mgr.quarantine c4t.id =
        some (c4t.fd_staged ++ c4t.buffer) ∧
      (commitTxn mgr0 q0 sys0 c4t).stagingLeft = none ∧
      (commitTxn mgr0 q0 sys0 c4t).mgr.entries = mgr0.entries
    else
      (commitTxn mgr0 q0 sys0 c4t).mgr.quarantine = mgr0.quarantine ∧
      (commitTxn mgr0 q0 sys0 c4t).ret = 0 ∧
      lookupEntry (commitTxn mgr0 q0 sys0 c4t).mgr.entries c4t.id =
        some (c4t.fd_staged ++ c4t.buffer) :=
  c4_commit_size_check mgr0 q0 sys0 c4t rfl rfl rfl rfl rfl (by decide)
    (by decide)

/-- C5: on a commit of a Pinned or Catalog transaction that passes the
size check, the quota collaborator's Pin(hash, size, description,
is_catalog) is the first recorded call, and any rename happens after it;
if Pin refuses, the staging file is unlinked, the canonical store is
unchanged, no rename is attempted and CommitTxn returns -enospc. -/
theorem c5_commit_pin_before_rename (mgr : Mgr) (q : Quota) (s : Sys)
    (t : Transaction)
    (hw : s.writes = []) (hu : s.unlinks = [])
    (hty : t.ty = ObjectType.pinned ∨ t.ty = ObjectType.catalog)
    (hsz : t.size = t.expected_size) :
    (commitTxn mgr q s t).events.head? =
      some (Event.pin t.id t.size t.description
        (decide (t.ty = ObjectType.catalog))) ∧
    (q.pinOk = true →
      Event.renameCall ∈ (commitTxn mgr q s t).events.tail) ∧
    (q.pinOk = false →
      (commitTxn mgr q s t).ret = -enospc ∧
      (commitTxn mgr q s t).stagingLeft = none ∧
      (commitTxn mgr q s t).mgr.entries = mgr.entries ∧
      Event.renameCall ∉ (commitTxn mgr q s t).events) := by
  rw [commitTxn_flush_ok mgr q s t hw,
      commitFlushWith_passcheck mgr q
        { t with fd_staged := t.fd_staged ++ t.buffer, buffer := [] } s
        (fun h => h.1 hsz)]
  unfold commitPinPhase
  rw [if_pos hty]
  cases hq : q.pinOk
  · dsimp only
    refine ⟨rfl, ?_, fun _ => ⟨rfl, ?_, rfl, ?_⟩⟩
    · intro hcon; cases hcon
    · simp [unlinkStaging, popUnlink, hu]
    · simp
  · dsimp only
    refine ⟨rfl, fun _ => ?_, fun hcon => ?_⟩
    · exact commitRenameWith_renameCall mgr _ _
    · cases hcon

def c5t : Transaction := ⟨[], 4, 4, ObjectType.catalog, "cat", 11, [9, 9, 9, 9]⟩

def qNoPin : Quota := ⟨U64, U64, false⟩

/-- C5 witness: catalog transaction of matching size against a quota
collaborator that refuses the pin. -/
theorem c5_commit_pin_before_rename_witness :
    (commitTxn mgr0 qNoPin sys0 c5t).events.head? =
      some (Event.pin c5t.id c5t.size c5t.description
        (decide (c5t.ty = ObjectType.catalog))) ∧
    (qNoPin.pinOk = true →
      Event.renameCall ∈ (commitTxn mgr0 qNoPin sys0 c5t).events.tail) ∧
    (qNoPin.pinOk = false →
      (commitTxn mgr0 qNoPin sys0 c5t).ret = -enospc ∧
      (commitTxn mgr0 qNoPin sys0 c5t).stagingLeft = none ∧
      (commitTxn mgr0 qNoPin sys0 c5t).mgr.entries = mgr0.entries ∧
      Event.renameCall ∉ (commitTxn mgr0 qNoPin sys0 c5t).events) :=
  c5_commit_pin_before_rename mgr0 qNoPin sys0 c5t rfl rfl
    (Or.inr rfl) rfl

def c6tB : Transaction := ⟨[20], 4, 4, ObjectType.regular, "", 9, [10, 11, 12]⟩

def c6sysA : Sys := ⟨[], MkstempRes.ok 7, RenameRes.ok, LinkRes.eexist, [], []⟩

/-- C6 witness: the amended statement at concrete oracles, with unlink
errno 13. -/
theorem c6_nfs_rename_semantics_witness :
    (commitTxn c6mgr q0 c6sysA c6tB).ret = 0 ∧
    (commitTxn c6mgr q0 c6sys c6tB).ret = -(13 : Int) ∧
    (commitTxn c6mgr q0 c6sys c6tB).ret ≠ 0 ∧
    lookupEntry (commitTxn c6mgr q0 c6sys c6tB).mgr.entries c6tB.id =
      some (c6tB.fd_staged ++ c6tB.buffer) :=
  c6_nfs_rename_semantics c6mgr q0 c6tB c6sysA c6sys 13 rfl rfl rfl rfl rfl
    rfl rfl rfl rfl (by decide)

theorem writeLoop_exit (input : Bytes) (n fuel written : Nat)
    (t : Transaction) (s : Sys) (hf : fuel ≠ 0) (hw : ¬ written < n) :
    writeLoop input n fuel written t s =
      ((n : Int), { t with size := u64 (t.size + written) }, s) := by
  rw [writeLoop, dif_neg hf, if_neg hw]

theorem writeLoop_step (input : Bytes) (n fuel written : Nat)
    (t : Transaction) (s : Sys) (hf : fuel ≠ 0) (hw : written < n)
    (hb : t.buffer.length ≠ bufCapacity) :
    writeLoop input n fuel written t s =
      writeLoop input n (fuel - 1)
        (written + min (n - written) (bufCapacity - t.buffer.length))
        { t with buffer := t.buffer ++
            input.take (min (n - written) (bufCapacity - t.buffer.length)) }
        s := by
  rw [writeLoop, dif_neg hf, if_pos hw]
  dsimp only
  rw [if_neg hb]
  dsimp only
  rw [if_neg (by norm_num)]

theorem writeLoop_step_flush (input : Bytes) (n fuel written : Nat)
    (t : Transaction) (s : Sys) (hf : fuel ≠ 0) (hw : written < n)
    (hb : t.buffer.length = bufCapacity) (hws : s.writes = []) :
    writeLoop input n fuel written t s =
      writeLoop input n (fuel - 1) (written + min (n - written) bufCapacity)
        { t with fd_staged := t.fd_staged ++ t.buffer,
                 buffer := input.take (min (n - written) bufCapacity) } s := by
  rw [writeLoop, dif_neg hf, if_pos hw]
  dsimp only
  rw [if_pos hb, flush_ok t s hws]
  dsimp only
  rw [if_neg (by norm_num)]
  simp only [List.length_nil, Nat.sub_zero, List.nil_append]

/-- The 4096 zero bytes filling the write buffer exactly. -/
def B0 : Bytes := List.replicate 4096 0

def c1buf : Bytes := B0 ++ [1]

def c1run : OpResult (Bool × Mgr × Sys) :=
  commitFromMem mgr0 q0 sys0 3 c1buf "certificate"

theorem c1buf_len : c1buf.length = 4097 := by
  simp only [c1buf, B0, List.length_append, List.length_replicate,
    List.length_cons, List.length_nil]

theorem c1take_big : c1buf.take 4096 = B0 := by
  rw [show c1buf = B0 ++ [1] from rfl,
      List.take_append_of_le_length
        (by simp only [B0, List.length_replicate]; omega),
      show (4096 : Nat) = B0.length from by
        simp only [B0, List.length_replicate]]
  exact List.take_length _

theorem c1take_one : c1buf.take 1 = [0] := by
  rw [show c1buf = B0 ++ [1] from rfl,
      List.take_append_of_le_length
        (by simp only [B0, List.length_replicate]; omega)]
  show (List.replicate 4096 (0 : Nat)).take 1 = [0]
  rw [List.take_replicate, show min 1 4096 = 1 from by omega]
  rfl

def c1mgr1 : Mgr := ⟨CacheMode.readWrite, 1, [], [], false, false, true⟩

def c1mgrF : Mgr :=
  ⟨CacheMode.readWrite, 0, [(3, B0 ++ [0])], [], false, false, true⟩

theorem c1_start_eval :
    startTxn mgr0 q0 sys0 3 4097 =
      OpResult.ok ⟨7, c1mgr1,
        some ⟨[], 0, 4097, ObjectType.regular, "", 3, []⟩,
        [1], [Event.mkstempCall], true, sys0⟩ := by decide

theorem c1_write_eval :
    posixWrite c1buf
      ⟨[], 0, 4097, ObjectType.regular, "certificate", 3, []⟩ sys0 =
      (4097, ⟨[0], 4097, 4097, ObjectType.regular, "certificate", 3, B0⟩,
       sys0) := by
  unfold posixWrite
  rw [c1buf_len,
      if_neg (by norm_num [u64, U64, kSizeUnknown]),
      writeLoop_step _ _ _ _ _ _ (by norm_num) (by norm_num)
        (by norm_num [bufCapacity])]
  norm_num [bufCapacity]
  rw [c1take_big,
      writeLoop_step_flush _ _ _ _ _ _ (by norm_num) (by norm_num)
        (by simp only [B0, List.length_replicate, bufCapacity]) rfl]
  norm_num [bufCapacity]
  rw [c1take_one,
      writeLoop_exit _ _ _ _ _ _ (by norm_num) (by norm_num)]
  norm_num [u64, U64]

theorem c1_commit_eval :
    commitTxn c1mgr1 q0 sys0
      ⟨[0], 4097, 4097, ObjectType.regular, "certificate", 3, B0⟩ =
      ⟨0, c1mgrF, [Event.renameCall, Event.insert 3 4097 "certificate"],
       none, sys0⟩ := rfl

theorem c1_run_eval : c1run = OpResult.ok (true, c1mgrF, sys0) := by
  unfold c1run commitFromMem
  rw [c1buf_len, c1_start_eval]
  dsimp only [ctrlTxn]
  rw [c1_write_eval]
  dsimp only
  rw [if_neg (by norm_num), c1_commit_eval]
  rfl

theorem c1_pread_eval :
    preadBytes (B0 ++ [0]) 4097 0 sys0 =
      ((4097 : Int), (B0 ++ [0] : Bytes), sys0) := by
  have hlen : (B0 ++ [0] : Bytes).length = 4097 := by
    simp only [B0, List.length_append, List.length_replicate,
      List.length_cons, List.length_nil]
  unfold preadBytes popPread
  dsimp only [sys0]
  rw [List.drop_zero, List.take_of_length_le (by omega), hlen]
  rfl

theorem c1_open_eval :
    (open2Mem c1mgrF sys0 3).1 = ⟨true, some (B0 ++ [0]), 4097⟩ := by
  have hlen : (B0 ++ [0] : Bytes).length = 4097 := by
    simp only [B0, List.length_append, List.length_replicate,
      List.length_cons, List.length_nil]
  unfold open2Mem
  rw [show lookupEntry c1mgrF.entries 3 = some (B0 ++ [0]) from rfl]
  dsimp only
  rw [hlen, if_pos (by norm_num), c1_pread_eval]
  norm_num

/-- C1: the round trip fails on the code for a buffer crossing the 4 KiB
write-buffer boundary: CommitFromMem of the 4097-byte buffer B0 ++ [1]
(4096 zeros then a 1) reports success, yet Open2Mem returns a buffer
whose last byte is 0 (the first byte of the input repeated by the batch
loop, whose memcpy source is never advanced), not the committed buffer.
The claim (and spec P5) say the bytes read back equal the committed
bytes. -/
theorem c1_roundtrip_write_bug :
    cfmOk c1run = true ∧
    (open2Mem (cfmMgr mgr0 c1run) sys0 3).1 =
      ⟨true, some (B0 ++ [0]), 4097⟩ ∧
    (B0 ++ [0] : Bytes) ≠ c1buf := by
  refine ⟨?_, ?_, ?_⟩
  · rw [c1_run_eval]
    rfl
  · rw [c1_run_eval]
    exact c1_open_eval
  · intro h
    rw [show c1buf = B0 ++ [1] from rfl] at h
    have h2 := List.append_cancel_left h
    injection h2 with h3
    omega

def c8w1 : Bytes := List.replicate 4095 7

def c8t0 : Transaction := ⟨[], 0, kSizeUnknown, ObjectType.regular, "", 5, []⟩

def c8r1 : Int × Transaction × Sys := posixWrite c8w1 c8t0 sys0

def c8r2 : Int × Transaction × Sys := posixWrite [1, 2] c8r1.2.1 c8r1.2.2

def c8commit : CommitOut := commitTxn mgr0 q0 c8r2.2.2 c8r2.2.1

theorem c8w1_take : c8w1.take 4095 = c8w1 := by
  rw [show (4095 : Nat) = c8w1.length from by
        simp only [c8w1, List.length_replicate]]
  exact List.take_length _

theorem c8_w1_eval :
    posixWrite c8w1 c8t0 sys0 =
      (4095, ⟨c8w1, 4095, kSizeUnknown, ObjectType.regular, "", 5, []⟩,
       sys0) := by
  unfold posixWrite c8t0
  rw [show c8w1.length = 4095 from by
        simp only [c8w1, List.length_replicate],
      if_neg (by simp [kSizeUnknown]),
      writeLoop_step _ _ _ _ _ _ (by norm_num) (by norm_num)
        (by norm_num [bufCapacity])]
  norm_num [bufCapacity]
  rw [c8w1_take, writeLoop_exit _ _ _ _ _ _ (by norm_num) (by norm_num)]
  norm_num [u64, U64]

theorem c8_w2_eval :
    posixWrite [1, 2]
      ⟨c8w1, 4095, kSizeUnknown, ObjectType.regular, "", 5, []⟩ sys0 =
      (2, ⟨[1], 4097, kSizeUnknown, ObjectType.regular, "", 5, c8w1 ++ [1]⟩,
       sys0) := by
  have hb1 : (c8w1 : Bytes).length = 4095 := by
    simp only [c8w1, List.length_replicate]
  unfold posixWrite
  rw [if_neg (by simp [kSizeUnknown]),
      writeLoop_step _ _ _ _ _ _ (by norm_num) (by norm_num)
        (by rw [hb1]; norm_num [bufCapacity])]
  rw [hb1]
  norm_num [bufCapacity]
  rw [writeLoop_step_flush _ _ _ _ _ _ (by norm_num) (by norm_num)
        (by simp only [List.length_append, hb1, List.length_cons,
              List.length_nil, bufCapacity])
        rfl]
  norm_num [bufCapacity]
  rw [writeLoop_exit _ _ _ _ _ _ (by norm_num) (by norm_num)]
  norm_num [u64, U64]

theorem c8_commit_eval :
    commitTxn mgr0 q0 sys0
      ⟨[1], 4097, kSizeUnknown, ObjectType.regular, "", 5, c8w1 ++ [1]⟩ =
      ⟨0, ⟨CacheMode.readWrite, -1, [(5, (c8w1 ++ [1]) ++ [1])], [],
          false, false, true⟩,
       [Event.renameCall, Event.insert 5 4097 ""], none, sys0⟩ := rfl

/-- C8: two Writes (4095 bytes of 7, then the two bytes 1, 2) both return
their full requested counts and the commit succeeds, yet the committed
content ends in 1, 1 instead of 1, 2: the second byte of the second write
is replaced by its first byte because the batch loop's memcpy source is
never advanced by the written count.  The claim says the staging-file
contents after flushing equal the concatenation of the written buffers in
invocation order. -/
theorem c8_write_order_bug :
    c8r1.1 = 4095 ∧ c8r2.1 = 2 ∧ c8commit.ret = 0 ∧
    lookupEntry c8commit.mgr.entries 5 = some (c8w1 ++ [1, 1]) ∧
    (c8w1 ++ [1, 1] : Bytes) ≠ c8w1 ++ [1, 2] := by
  have h1 : c8r1 =
      (4095, ⟨c8w1, 4095, kSizeUnknown, ObjectType.regular, "", 5, []⟩,
       sys0) := c8_w1_eval
  have h2 : c8r2 =
      (2, ⟨[1], 4097, kSizeUnknown, ObjectType.regular, "", 5, c8w1 ++ [1]⟩,
       sys0) := by
    show posixWrite [1, 2] c8r1.2.1 c8r1.2.2 = _
    rw [h1]
    exact c8_w2_eval
  have h3 : c8commit =
      ⟨0, ⟨CacheMode.readWrite, -1, [(5, (c8w1 ++ [1]) ++ [1])], [],
          false, false, true⟩,
       [Event.renameCall, Event.insert 5 4097 ""], none, sys0⟩ := by
    show commitTxn mgr0 q0 c8r2.2.2 c8r2.2.1 = _
    rw [h2]
    exact c8_commit_eval
  refine ⟨by rw [h1], by rw [h2], by rw [h3], ?_, ?_⟩
  · rw [h3]
    show lookupEntry [(5, (c8w1 ++ [1]) ++ [1])] 5 = some (c8w1 ++ [1, 1])
    rw [List.append_assoc]
    rfl
  · intro h
    have h2 := List.append_cancel_left h
    injection h2 with h3 h4
    injection h4 with h5
    omega

end Cvmfs
